import Mathlib

set_option maxRecDepth 10000

/-!
Verification of the certinject CryptoAPI store manager
(`cryptoapi_windows.go`): a shallow embedding of certificate injection
(`injectCertCryptoAPI`), the expiry sweep (`cleanCertsCryptoAPI`) and the
per-entry expiry check (`checkCertExpiredCryptoAPI`), together with the
store-resolution table and the SHA-1 fingerprint computation, and theorems
about them.

The Windows registry is an external collaborator; its fallible operations
are embedded as oracle records (`InjectOps`, `CleanOps`, `CertKeyOps`)
supplying each call's outcome, and the observable behaviour of the two
top-level operations is a pair of the log events they emit and, for
injection, the trace of registry mutations they perform (respectively, for
the sweep, the list of sub-containers they delete).  Time is modelled as
`ℤ` nanoseconds (Go `time.Time` and `time.Duration` have nanosecond
resolution) and the expiry period flag as `ℤ` seconds; the source's
comparison `math.Abs(elapsed.Seconds()) > float64(period)` is, in exact
arithmetic, `|elapsedNs| / 10^9 > period`, i.e. `|elapsedNs| > period *
10^9`, which is how the check is embedded.
-/

namespace Certinject

/-! ### SHA-1 (Go standard library `crypto/sha1`, used via `sha1.Sum`) -/

/-- Truncate a natural number to an unsigned 32-bit word. -/
def w32 (n : Nat) : Nat := n % 4294967296

/-- Rotate a 32-bit word left by `k` bits. -/
def rotl (k n : Nat) : Nat := w32 ((n <<< k) ||| (n >>> (32 - k)))

/-- SHA-1 round constants. -/
def sha1K (t : Nat) : Nat :=
  if t < 20 then 0x5A827999
  else if t < 40 then 0x6ED9EBA1
  else if t < 60 then 0x8F1BBCDC
  else 0xCA62C1D6

/-- SHA-1 round functions. -/
def sha1F (t b c d : Nat) : Nat :=
  if t < 20 then (b &&& c) ||| ((b ^^^ 0xFFFFFFFF) &&& d)
  else if t < 40 then b ^^^ c ^^^ d
  else if t < 60 then (b &&& c) ||| (b &&& d) ||| (c &&& d)
  else b ^^^ c ^^^ d

/-- Big-endian 32-bit word from four bytes of a block. -/
def wordAt (block : List Nat) (i : Nat) : Nat :=
  (block.getD (4 * i) 0) <<< 24 ||| (block.getD (4 * i + 1) 0) <<< 16 |||
  (block.getD (4 * i + 2) 0) <<< 8 ||| block.getD (4 * i + 3) 0

/-- Extend the 16-word schedule word by word (appending `n` further words). -/
def sha1ScheduleAux : Nat → List Nat → List Nat
  | 0, ws => ws
  | n + 1, ws =>
    let t := ws.length
    let x := rotl 1 (((ws.getD (t - 3) 0) ^^^ (ws.getD (t - 8) 0)) ^^^
                    ((ws.getD (t - 14) 0) ^^^ (ws.getD (t - 16) 0)))
    sha1ScheduleAux n (ws ++ [x])

/-- The 80-word message schedule of a 64-byte block. -/
def sha1Schedule (block : List Nat) : List Nat :=
  sha1ScheduleAux 64 ((List.range 16).map (wordAt block))

/-- The five 32-bit words of SHA-1 chaining state. -/
structure SHA1State where
  a : Nat
  b : Nat
  c : Nat
  d : Nat
  e : Nat

/-- One SHA-1 compression round. -/
def sha1Step (ws : List Nat) (s : SHA1State) (t : Nat) : SHA1State :=
  let temp := w32 (rotl 5 s.a + sha1F t s.b s.c s.d + s.e + ws.getD t 0 + sha1K t)
  ⟨temp, s.a, rotl 30 s.b, s.c, s.d⟩

/-- Compress one 64-byte block into the running state. -/
def sha1Compress (h : SHA1State) (block : List Nat) : SHA1State :=
  let ws := sha1Schedule block
  let f := (List.range 80).foldl (sha1Step ws) h
  ⟨w32 (h.a + f.a), w32 (h.b + f.b), w32 (h.c + f.c), w32 (h.d + f.d), w32 (h.e + f.e)⟩

/-- Split a byte list into 64-byte blocks (fuel-based structural recursion;
the fuel `l.length + 1` always suffices). -/
def sha1BlocksAux : Nat → List Nat → List (List Nat)
  | 0, _ => []
  | _, [] => []
  | fuel + 1, x :: xs => (x :: xs).take 64 :: sha1BlocksAux fuel ((x :: xs).drop 64)

/-- Split a byte list into 64-byte blocks. -/
def sha1Blocks (l : List Nat) : List (List Nat) := sha1BlocksAux (l.length + 1) l

/-- Big-endian 64-bit encoding of a number as eight bytes. -/
def be64 (n : Nat) : List Nat :=
  [(n >>> 56) % 256, (n >>> 48) % 256, (n >>> 40) % 256, (n >>> 32) % 256,
   (n >>> 24) % 256, (n >>> 16) % 256, (n >>> 8) % 256, n % 256]

/-- Big-endian 32-bit encoding of a word as four bytes. -/
def be32 (n : Nat) : List Nat :=
  [(n >>> 24) % 256, (n >>> 16) % 256, (n >>> 8) % 256, n % 256]

/-- SHA-1 message padding: `0x80`, zeros to 56 mod 64, then the bit length
big-endian. -/
def sha1Pad (msg : List Nat) : List Nat :=
  msg ++ [0x80] ++ List.replicate ((119 - msg.length % 64) % 64) 0 ++ be64 (8 * msg.length)

/-- The SHA-1 initialisation vector. -/
def sha1Init : SHA1State := ⟨0x67452301, 0xEFCDAB89, 0x98BADCFE, 0x10325476, 0xC3D2E1F0⟩

/-- SHA-1 digest of a byte list, as the 20 digest bytes: the Go standard
library `sha1.Sum` used at line 137 of `cryptoapi_windows.go`. -/
def sha1Sum (msg : List Nat) : List Nat :=
  let s := (sha1Blocks (sha1Pad msg)).foldl sha1Compress sha1Init
  be32 s.a ++ be32 s.b ++ be32 s.c ++ be32 s.d ++ be32 s.e

/-! ### Hex rendering (Go `encoding/hex` and `strings.ToUpper`) -/

/-- Lowercase hexadecimal digit for a value below 16. -/
def hexDigit (n : Nat) : Char := if n < 10 then Char.ofNat (48 + n) else Char.ofNat (87 + n)

/-- Lowercase hex encoding of a byte list, as Go `hex.EncodeToString`. -/
def hexEncodeToString (bytes : List Nat) : String :=
  String.mk (bytes.foldr (fun b acc => hexDigit (b / 16 % 16) :: hexDigit (b % 16) :: acc) [])

/-- Character-wise uppercasing of a string, as Go `strings.ToUpper` acts on
an ASCII hex string. -/
def sToUpper (s : String) : String := String.mk (s.data.map Char.toUpper)

/-! ### Constants and store-resolution table (`cryptoapi_windows.go` lines 17-64) -/

/-- `const cryptoAPIMagicName = "Namecoin"`. -/
def cryptoAPIMagicName : String := "Namecoin"

/-- `const cryptoAPIMagicValue = 1`. -/
def cryptoAPIMagicValue : Nat := 1

/-- `Store` generates a registry key to open a certificate store: a base
hive, a physical path and a logical path template. -/
structure Store where
  base : String
  physical : String
  logical : String

/-- The fixed `cryptoAPIStores` table of the four implemented physical
scopes. -/
def cryptoAPIStores (name : String) : Option Store :=
  if name = "current-user" then
    some ⟨"HKEY_CURRENT_USER", "SOFTWARE\\Microsoft\\SystemCertificates", "%s\\Certificates"⟩
  else if name = "system" then
    some ⟨"HKEY_LOCAL_MACHINE", "SOFTWARE\\Microsoft\\SystemCertificates", "%s\\Certificates"⟩
  else if name = "enterprise" then
    some ⟨"HKEY_LOCAL_MACHINE", "SOFTWARE\\Microsoft\\EnterpriseCertificates", "%s\\Certificates"⟩
  else if name = "group-policy" then
    some ⟨"HKEY_LOCAL_MACHINE", "SOFTWARE\\Policies\\Microsoft\\SystemCertificates", "%s\\Certificates"⟩
  else none

/-- The error message produced for an unknown physical store choice. -/
def invalidStoreChoiceMsg : String :=
  "invalid choice for physical store, consider: current-user, system, enterprise, group-policy"

/-- `cryptoAPINameToStore` checks that the choice is valid before returning
the `Store` for it. -/
def cryptoAPINameToStore (name : String) : Except String Store :=
  match cryptoAPIStores name with
  | some s => Except.ok s
  | none => Except.error invalidStoreChoiceMsg

/-- `Store.Key` generates the registry key for opening the store:
`fmt.Sprintf("%s\\" + s.Logical, s.Physical, logicalStoreName)`. -/
def Store.key (s : Store) (logicalStoreName : String) : String :=
  s.physical ++ "\\" ++ s.logical.replace "%s" logicalStoreName

/-! ### Certificate registry blob (`certblob.Blob{0x20: derBytes}` and its
marshalling) -/

/-- The Blob constructed by `injectCertCryptoAPI` at line 117:
`certblob.Blob{0x20: derBytes}` — a mapping from property tag to payload,
here the single raw-certificate record. -/
def certblobBlob (derBytes : List Nat) : List (Nat × List Nat) := [(0x20, derBytes)]

/-- Little-endian 32-bit encoding of a word as four bytes. -/
def le32 (n : Nat) : List Nat := [n % 256, (n >>> 8) % 256, (n >>> 16) % 256, (n >>> 24) % 256]

/-- Modelled from the spec: the `certblob` package implementing
`Blob.Marshal` is not part of the two source files; per the spec's Blob
Codec contract, each record is encoded as a 12-byte header — tag,
reserved value 1, payload length, all little-endian unsigned 32-bit —
immediately followed by the payload bytes verbatim, and a payload length
beyond the unsigned 32-bit range fails with an encoding-overflow error. -/
def marshalRecord (tag : Nat) (payload : List Nat) : Except String (List Nat) :=
  if payload.length < 4294967296 then
    Except.ok (le32 tag ++ le32 1 ++ le32 payload.length ++ payload)
  else Except.error "encoding overflow"

/-- Modelled from the spec: `Blob.Marshal` concatenates the encodings of
the blob's records with no outer framing. -/
def blobMarshal : List (Nat × List Nat) → Except String (List Nat)
  | [] => Except.ok []
  | (tag, payload) :: rest =>
    match marshalRecord tag payload, blobMarshal rest with
    | Except.ok bs, Except.ok bs2 => Except.ok (bs ++ bs2)
    | Except.error e, _ => Except.error e
    | _, Except.error e => Except.error e

/-! ### Injection (`injectCertCryptoAPI`, lines 66-176) -/

/-- The registry mutations injection performs on the cert store, in call
order. -/
inductive RegAction where
  | createKey (name : String)
  | deleteValue (name : String)
  | setDWordValue (name : String) (value : Nat)
  | setBinaryValue (name : String) (data : List Nat)
deriving DecidableEq

/-- The log events `injectCertCryptoAPI` can emit via `log.Errorf`. -/
inductive InjectLog where
  | resolveFailed (e : String)
  | marshalFailed (e : String)
  | openStoreFailed (e : String)
  | createKeyFailed (e : String)
  | setMagicFailed (e : String)
  | setBlobFailed (e : String)
deriving DecidableEq

/-- Oracle for the outcome of each fallible registry call injection makes.
The outcome of `certKey.DeleteValue` is carried too, mirroring that the
source receives it, though the source discards it with `_ =`. -/
structure InjectOps where
  openStoreErr : Option String
  createKeyErr : Option String
  deleteValueErr : Option String
  setDWordErr : Option String
  setBinaryErr : Option String

/-- The sub-container name injection files a certificate under: the
uppercase hex rendering of the SHA-1 digest of the DER bytes
(lines 134-143). -/
def certFingerprintName (derBytes : List Nat) : String :=
  sToUpper (hexEncodeToString (sha1Sum derBytes))

/-- `injectCertCryptoAPI` (lines 66-176): resolve the store, build and
marshal the blob, open the store, compute the fingerprint name, create the
cert sub-key, delete the magic value ignoring any error, set the magic
value, then set the Blob value.  Each failure is logged and aborts; the
result is the emitted log events paired with the registry mutations
performed. -/
def injectCertCryptoAPI (physicalStoreName : String) (derBytes : List Nat)
    (ops : InjectOps) : List InjectLog × List RegAction :=
  match cryptoAPINameToStore physicalStoreName with
  | Except.error e => ([InjectLog.resolveFailed e], [])
  | Except.ok _store =>
    match blobMarshal (certblobBlob derBytes) with
    | Except.error e => ([InjectLog.marshalFailed e], [])
    | Except.ok blobBytes =>
      match ops.openStoreErr with
      | some e => ([InjectLog.openStoreFailed e], [])
      | none =>
        let fingerprintHexUpper := certFingerprintName derBytes
        match ops.createKeyErr with
        | some e => ([InjectLog.createKeyFailed e], [])
        | none =>
          let acts := [RegAction.createKey fingerprintHexUpper,
                       RegAction.deleteValue cryptoAPIMagicName,
                       RegAction.setDWordValue cryptoAPIMagicName cryptoAPIMagicValue]
          match ops.setDWordErr with
          | some e => ([InjectLog.setMagicFailed e], acts)
          | none =>
            match ops.setBinaryErr with
            | some e => ([InjectLog.setBlobFailed e],
                         acts ++ [RegAction.setBinaryValue "Blob" blobBytes])
            | none => ([], acts ++ [RegAction.setBinaryValue "Blob" blobBytes])

/-! ### Expiry check (`checkCertExpiredCryptoAPI`, lines 220-254) -/

/-- Metadata `certKey.Stat()` returns; `ModTime` as nanoseconds. -/
structure KeyInfo where
  modTime : ℤ
deriving DecidableEq

/-- The errors `checkCertExpiredCryptoAPI` can return. -/
inductive CheckErr where
  | openKeyFailed (e : String)
  | statFailed (e : String)
deriving DecidableEq

/-- Oracle for the outcome of the registry reads on one cert sub-key:
`OpenKey`, `GetIntegerValue(cryptoAPIMagicName)` and `Stat`. -/
structure CertKeyOps where
  openErr : Option String
  magicValue : Except String Nat
  statResult : Except String KeyInfo

/-- `checkCertExpiredCryptoAPI` (lines 220-254): open the cert key; a
failed read of the magic value means the entry is not a Namecoin cert, so
it is not considered expired, as is a magic value other than the expected
one; otherwise the entry is expired exactly when the absolute difference
between the current time and the key's last-modified time exceeds the
expiry period: `math.Abs(time.Since(certKeyModTime).Seconds()) >
float64(certExpirePeriod.Value())`, with times in nanoseconds and the
period in seconds. -/
def checkCertExpiredCryptoAPI (now : ℤ) (certExpirePeriod : ℤ) (k : CertKeyOps) :
    Except CheckErr Bool :=
  match k.openErr with
  | some e => Except.error (CheckErr.openKeyFailed e)
  | none =>
    match k.magicValue with
    | Except.error _ => Except.ok false
    | Except.ok isNamecoin =>
      if isNamecoin = cryptoAPIMagicValue then
        match k.statResult with
        | Except.error e => Except.error (CheckErr.statFailed e)
        | Except.ok certKeyInfo =>
          Except.ok (decide (|now - certKeyInfo.modTime| > certExpirePeriod * 1000000000))
      else Except.ok false

/-! ### Expiry sweep (`cleanCertsCryptoAPI`, lines 178-218) -/

/-- The log events `cleanCertsCryptoAPI` can emit via `log.Errorf`. -/
inductive CleanLog where
  | resolveFailed (e : String)
  | openStoreFailed (e : String)
  | listCertsFailed (e : String)
  | checkExpiredFailed (e : CheckErr)
  | deleteExpiredFailed (e : String)
deriving DecidableEq

/-- Oracle for the registry operations the sweep performs: opening the
store, enumerating sub-key names, per-entry reads, and deletion. -/
structure CleanOps where
  openStoreErr : Option String
  readSubKeyNames : Except String (List String)
  entry : String → CertKeyOps
  deleteKeyErr : String → Option String

/-- The `for` loop of `cleanCertsCryptoAPI` (lines 203-217): check each
cert; a check error is logged and the function returns (the loop is
abandoned); an expired cert is deleted, a deletion error being logged
without stopping the loop.  The result is the emitted log events paired
with the names of the sub-keys successfully deleted. -/
def cleanLoop (now : ℤ) (certExpirePeriod : ℤ) (ops : CleanOps) :
    List String → List CleanLog × List String
  | [] => ([], [])
  | subKeyName :: rest =>
    match checkCertExpiredCryptoAPI now certExpirePeriod (ops.entry subKeyName) with
    | Except.error e => ([CleanLog.checkExpiredFailed e], [])
    | Except.ok expired =>
      if expired then
        match ops.deleteKeyErr subKeyName with
        | some e =>
          let r := cleanLoop now certExpirePeriod ops rest
          (CleanLog.deleteExpiredFailed e :: r.1, r.2)
        | none =>
          let r := cleanLoop now certExpirePeriod ops rest
          (r.1, subKeyName :: r.2)
      else cleanLoop now certExpirePeriod ops rest

/-- `cleanCertsCryptoAPI` (lines 178-218): resolve the store, open it,
enumerate the sub-keys and run the sweep loop; each top-level failure is
logged and aborts the sweep. -/
def cleanCertsCryptoAPI (physicalStoreName : String) (now : ℤ) (certExpirePeriod : ℤ)
    (ops : CleanOps) : List CleanLog × List String :=
  match cryptoAPINameToStore physicalStoreName with
  | Except.error e => ([CleanLog.resolveFailed e], [])
  | Except.ok _store =>
    match ops.openStoreErr with
    | some e => ([CleanLog.openStoreFailed e], [])
    | none =>
      match ops.readSubKeyNames with
      | Except.error e => ([CleanLog.listCertsFailed e], [])
      | Except.ok subKeys => cleanLoop now certExpirePeriod ops subKeys

/-! ### Concrete oracle fixtures for counterexamples and witnesses -/

/-- Injection oracles where every registry call succeeds. -/
def okInjectOps : InjectOps := ⟨none, none, none, none, none⟩

/-- Injection oracles where only the pre-delete of the magic value fails. -/
def delFailInjectOps : InjectOps := ⟨none, none, some "ERROR_FILE_NOT_FOUND", none, none⟩

/-- Injection oracles where opening the cert store fails. -/
def openFailInjectOps : InjectOps := ⟨some "ERROR_ACCESS_DENIED", none, none, none, none⟩

/-- A readable Namecoin-marked entry with the given last-modified time. -/
def markedEntry (t : ℤ) : CertKeyOps := ⟨none, Except.ok 1, Except.ok ⟨t⟩⟩

/-- An entry whose registry key cannot be opened. -/
def unreadableEntry : CertKeyOps :=
  ⟨some "ERROR_ACCESS_DENIED", Except.error "unreadable", Except.error "unreadable"⟩

/-- A readable entry bearing a foreign magic value. -/
def foreignEntry : CertKeyOps := ⟨none, Except.ok 2, Except.ok ⟨0⟩⟩

/-- A readable entry with no magic value at all. -/
def noMagicEntry : CertKeyOps := ⟨none, Except.error "ERROR_FILE_NOT_FOUND", Except.ok ⟨0⟩⟩

/-- Sweep oracles over a store holding a single entry, deletion succeeding. -/
def singleEntryOps (k : CertKeyOps) (n : String) : CleanOps :=
  ⟨none, Except.ok [n], fun _ => k, fun _ => none⟩

/-- Sweep oracles over two entries: the first cannot be opened, the second
is a stale marked entry that could be deleted. -/
def abortDemoOps : CleanOps :=
  ⟨none, Except.ok ["AAAA", "BBBB"],
   fun n => if n = "AAAA" then unreadableEntry else markedEntry 0,
   fun _ => none⟩

/-- Sweep oracles over two stale marked entries where deleting the first
fails. -/
def delFailDemoOps : CleanOps :=
  ⟨none, Except.ok ["DEAD", "BEEF"], fun _ => markedEntry 0,
   fun n => if n = "DEAD" then some "ERROR_ACCESS_DENIED" else none⟩

/-- Sweep oracles where opening the cert store fails. -/
def openFailCleanOps : CleanOps :=
  ⟨some "ERROR_ACCESS_DENIED", Except.ok [], fun _ => markedEntry 0, fun _ => none⟩

/-- Sweep oracles where enumerating sub-key names fails. -/
def listFailCleanOps : CleanOps :=
  ⟨none, Except.error "ERROR_NO_MORE_ITEMS", fun _ => markedEntry 0, fun _ => none⟩

/-! ### Helper lemmas -/

/-- On a readable, correctly marked entry, the check returns exactly the
absolute-elapsed-time comparison. -/
theorem check_marked_eval (now modT p : ℤ) (k : CertKeyOps)
    (hopen : k.openErr = none) (hmagic : k.magicValue = Except.ok cryptoAPIMagicValue)
    (hstat : k.statResult = Except.ok ⟨modT⟩) :
    checkCertExpiredCryptoAPI now p k =
      Except.ok (decide (|now - modT| > p * 1000000000)) := by
  obtain ⟨op, mg, st⟩ := k
  simp only at hopen hmagic hstat
  subst hopen hmagic hstat
  simp [checkCertExpiredCryptoAPI, cryptoAPIMagicValue]

/-- The check judges an entry expired only if its magic value read back as
the expected one. -/
theorem check_expired_magic (now p : ℤ) (k : CertKeyOps)
    (h : checkCertExpiredCryptoAPI now p k = Except.ok true) :
    k.magicValue = Except.ok cryptoAPIMagicValue := by
  obtain ⟨op, mg, st⟩ := k
  cases op with
  | some e => simp [checkCertExpiredCryptoAPI] at h
  | none =>
    cases mg with
    | error e => simp [checkCertExpiredCryptoAPI] at h
    | ok v =>
      by_cases hv : v = cryptoAPIMagicValue
      · show Except.ok v = Except.ok cryptoAPIMagicValue
        rw [hv]
      · simp [checkCertExpiredCryptoAPI, hv] at h

/-- Every sub-key the sweep loop deletes was judged expired by the check. -/
theorem cleanLoop_deleted_check (now p : ℤ) (ops : CleanOps) :
    ∀ (names : List String) (n : String), n ∈ (cleanLoop now p ops names).2 →
      checkCertExpiredCryptoAPI now p (ops.entry n) = Except.ok true := by
  intro names
  induction names with
  | nil => intro n hn; simp [cleanLoop] at hn
  | cons a rest ih =>
    intro n hn
    cases hc : checkCertExpiredCryptoAPI now p (ops.entry a) with
    | error e => simp [cleanLoop, hc] at hn
    | ok expired =>
      cases expired with
      | false =>
        simp only [cleanLoop, hc] at hn
        exact ih n (by simpa using hn)
      | true =>
        cases hd : ops.deleteKeyErr a with
        | some e =>
          simp only [cleanLoop, hc, hd] at hn
          exact ih n (by simpa using hn)
        | none =>
          simp only [cleanLoop, hc, hd] at hn
          rcases List.mem_cons.mp (by simpa using hn) with hna | hmem
          · rw [hna]; exact hc
          · exact ih n hmem

/-- Every sub-key the sweep deletes was judged expired by the check. -/
theorem cleanCerts_deleted_check (phys : String) (now p : ℤ) (ops : CleanOps) (n : String)
    (hn : n ∈ (cleanCertsCryptoAPI phys now p ops).2) :
    checkCertExpiredCryptoAPI now p (ops.entry n) = Except.ok true := by
  unfold cleanCertsCryptoAPI at hn
  cases hs : cryptoAPINameToStore phys with
  | error e => rw [hs] at hn; simp at hn
  | ok st =>
    rw [hs] at hn
    cases ho : ops.openStoreErr with
    | some e => rw [ho] at hn; simp at hn
    | none =>
      rw [ho] at hn
      cases hr : ops.readSubKeyNames with
      | error e => rw [hr] at hn; simp at hn
      | ok subKeys =>
        rw [hr] at hn
        exact cleanLoop_deleted_check now p ops subKeys n hn

/-- Evaluation of the sweep over a single-entry store. -/
theorem cleanCerts_singleton (now p : ℤ) (k : CertKeyOps) (n : String) (b : Bool)
    (hchk : checkCertExpiredCryptoAPI now p k = Except.ok b) :
    cleanCertsCryptoAPI "system" now p (singleEntryOps k n) =
      ([], if b then [n] else []) := by
  have hres : cryptoAPINameToStore "system" =
      Except.ok ⟨"HKEY_LOCAL_MACHINE", "SOFTWARE\\Microsoft\\SystemCertificates",
                 "%s\\Certificates"⟩ := by rfl
  simp only [cleanCertsCryptoAPI, hres, singleEntryOps, cleanLoop, hchk]
  cases b <;> simp [cleanLoop]

/-- Full evaluation of injection when every registry call succeeds. -/
theorem inject_success_eval (phys : String) (der : List Nat) (iops : InjectOps)
    (st : Store) (hst : cryptoAPIStores phys = some st)
    (hlen : der.length < 4294967296)
    (hopen : iops.openStoreErr = none) (hcreate : iops.createKeyErr = none)
    (hdword : iops.setDWordErr = none) (hbin : iops.setBinaryErr = none) :
    injectCertCryptoAPI phys der iops =
      ([], [RegAction.createKey (certFingerprintName der),
            RegAction.deleteValue cryptoAPIMagicName,
            RegAction.setDWordValue cryptoAPIMagicName cryptoAPIMagicValue,
            RegAction.setBinaryValue "Blob" (le32 0x20 ++ le32 1 ++ le32 der.length ++ der)]) := by
  simp [injectCertCryptoAPI, cryptoAPINameToStore, hst, certblobBlob, blobMarshal,
    marshalRecord, hlen, hopen, hcreate, hdword, hbin]

/-- Whenever injection gets as far as creating the certificate sub-key, its
first three registry mutations are: create the fingerprint-named key,
delete the magic value, write the magic value. -/
theorem inject_acts_prefix (phys : String) (der : List Nat) (iops : InjectOps)
    (st : Store) (hst : cryptoAPIStores phys = some st)
    (hlen : der.length < 4294967296)
    (hopen : iops.openStoreErr = none) (hcreate : iops.createKeyErr = none) :
    ∃ tail, (injectCertCryptoAPI phys der iops).2 =
      RegAction.createKey (certFingerprintName der) ::
      RegAction.deleteValue cryptoAPIMagicName ::
      RegAction.setDWordValue cryptoAPIMagicName cryptoAPIMagicValue :: tail := by
  cases hdw : iops.setDWordErr with
  | some e =>
    refine ⟨[], ?_⟩
    simp [injectCertCryptoAPI, cryptoAPINameToStore, hst, certblobBlob, blobMarshal,
      marshalRecord, hlen, hopen, hcreate, hdw]
  | none =>
    cases hb : iops.setBinaryErr with
    | some e =>
      refine ⟨[RegAction.setBinaryValue "Blob" (le32 0x20 ++ le32 1 ++ le32 der.length ++ der)], ?_⟩
      simp [injectCertCryptoAPI, cryptoAPINameToStore, hst, certblobBlob, blobMarshal,
        marshalRecord, hlen, hopen, hcreate, hdw, hb]
    | none =>
      refine ⟨[RegAction.setBinaryValue "Blob" (le32 0x20 ++ le32 1 ++ le32 der.length ++ der)], ?_⟩
      simp [injectCertCryptoAPI, cryptoAPINameToStore, hst, certblobBlob, blobMarshal,
        marshalRecord, hlen, hopen, hcreate, hdw, hb]

/-! ### Claims -/

/-- C2 (counterexample): with the current time `0`, expiry period `5`
seconds, and a marked entry whose last-modified timestamp lies `10`
seconds in the future — more than the threshold — the sweep's
absolute-value computation judges the entry expired and the sweep deletes
it, contradicting the claim that such an entry is not judged expired and
not deleted. -/
theorem c2_counterexample :
    checkCertExpiredCryptoAPI 0 5 (markedEntry 10000000000) = Except.ok true ∧
    cleanCertsCryptoAPI "system" 0 5 (singleEntryOps (markedEntry 10000000000) "FUTURE") =
      ([], ["FUTURE"]) := by
  exact ⟨by rfl, by rfl⟩

/-- C2 (amended): for every marked entry whose last-modified timestamp
lies in the future of the current time by more than the expiry threshold,
the sweep's absolute-value elapsed-time computation DOES judge the entry
expired, and the sweep deletes it: the absolute value makes future clock
skew count as elapsed time. -/
theorem c2_future_entries_expire (now modT p : ℤ) (k : CertKeyOps) (n : String)
    (hopen : k.openErr = none) (hmagic : k.magicValue = Except.ok cryptoAPIMagicValue)
    (hstat : k.statResult = Except.ok ⟨modT⟩)
    (hfuture : modT - now > p * 1000000000) :
    checkCertExpiredCryptoAPI now p k = Except.ok true ∧
    (cleanCertsCryptoAPI "system" now p (singleEntryOps k n)).2 = [n] := by
  have habs : |now - modT| > p * 1000000000 :=
    lt_of_lt_of_le hfuture (by rw [abs_sub_comm]; exact le_abs_self _)
  have hchk : checkCertExpiredCryptoAPI now p k = Except.ok true := by
    rw [check_marked_eval now modT p k hopen hmagic hstat]
    simp [habs]
  refine ⟨hchk, ?_⟩
  rw [cleanCerts_singleton now p k n true hchk]
  rfl

/-- C2 (amended, witness): the amended claim instantiated at current time
`0`, period `5` seconds, and a marked entry last modified `10` seconds in
the future. -/
theorem c2_future_entries_expire_witness :
    checkCertExpiredCryptoAPI 0 5 (markedEntry 10000000000) = Except.ok true ∧
    (cleanCertsCryptoAPI "system" 0 5
      (singleEntryOps (markedEntry 10000000000) "SKEWED")).2 = ["SKEWED"] :=
  c2_future_entries_expire 0 10000000000 5 (markedEntry 10000000000) "SKEWED"
    rfl rfl rfl (by decide)

/-- C3: an entry whose magic value is absent (the read fails) or reads
back as a value other than the expected `1` is never deleted by the sweep,
regardless of its last-modified age. -/
theorem c3_unmarked_never_deleted (phys : String) (now p : ℤ) (ops : CleanOps) (n : String)
    (hmagic : (∃ e, (ops.entry n).magicValue = Except.error e) ∨
      ∃ v, (ops.entry n).magicValue = Except.ok v ∧ v ≠ cryptoAPIMagicValue) :
    n ∉ (cleanCertsCryptoAPI phys now p ops).2 := by
  intro hn
  have hm := check_expired_magic now p (ops.entry n)
    (cleanCerts_deleted_check phys now p ops n hn)
  rcases hmagic with ⟨e, he⟩ | ⟨v, hv, hne⟩
  · rw [he] at hm
    exact Except.noConfusion hm
  · rw [hv] at hm
    simp only [Except.ok.injEq] at hm
    exact hne hm

/-- C3 (witness): an entry bearing the foreign magic value `2`, far older
than the `5` second threshold, is not deleted. -/
theorem c3_unmarked_never_deleted_witness :
    (((∃ e, ((singleEntryOps foreignEntry "FOREIGN").entry "FOREIGN").magicValue =
        Except.error e) ∨
      ∃ v, ((singleEntryOps foreignEntry "FOREIGN").entry "FOREIGN").magicValue =
        Except.ok v ∧ v ≠ cryptoAPIMagicValue)) ∧
    "FOREIGN" ∉ (cleanCertsCryptoAPI "system" 1000000000000 5
      (singleEntryOps foreignEntry "FOREIGN")).2 :=
  ⟨Or.inr ⟨2, rfl, by decide⟩,
   c3_unmarked_never_deleted "system" 1000000000000 5
     (singleEntryOps foreignEntry "FOREIGN") "FOREIGN" (Or.inr ⟨2, rfl, by decide⟩)⟩

/-- C5: the expiry comparison is strict: a marked entry whose
last-modified distance from now is exactly the threshold is not judged
expired and not deleted, while one whose distance exceeds the threshold by
any amount is judged expired and deleted. -/
theorem c5_strict_expiry_boundary (now modT p : ℤ) (k : CertKeyOps) (n : String)
    (hopen : k.openErr = none) (hmagic : k.magicValue = Except.ok cryptoAPIMagicValue)
    (hstat : k.statResult = Except.ok ⟨modT⟩) :
    (|now - modT| = p * 1000000000 →
      checkCertExpiredCryptoAPI now p k = Except.ok false ∧
      (cleanCertsCryptoAPI "system" now p (singleEntryOps k n)).2 = []) ∧
    (|now - modT| > p * 1000000000 →
      checkCertExpiredCryptoAPI now p k = Except.ok true ∧
      (cleanCertsCryptoAPI "system" now p (singleEntryOps k n)).2 = [n]) := by
  constructor
  · intro heq
    have hchk : checkCertExpiredCryptoAPI now p k = Except.ok false := by
      rw [check_marked_eval now modT p k hopen hmagic hstat]
      simp [heq]
    refine ⟨hchk, ?_⟩
    rw [cleanCerts_singleton now p k n false hchk]
    rfl
  · intro hgt
    have hchk : checkCertExpiredCryptoAPI now p k = Except.ok true := by
      rw [check_marked_eval now modT p k hopen hmagic hstat]
      simp [hgt]
    refine ⟨hchk, ?_⟩
    rw [cleanCerts_singleton now p k n true hchk]
    rfl

/-- C5 (witness): with a `5` second threshold and an entry last modified
at time `0`, the sweep at time `5` seconds (age exactly the threshold)
does not delete it, while the sweep one nanosecond later does. -/
theorem c5_strict_expiry_boundary_witness :
    checkCertExpiredCryptoAPI 5000000000 5 (markedEntry 0) = Except.ok false ∧
    (cleanCertsCryptoAPI "system" 5000000000 5
      (singleEntryOps (markedEntry 0) "CERT")).2 = [] ∧
    checkCertExpiredCryptoAPI 5000000001 5 (markedEntry 0) = Except.ok true ∧
    (cleanCertsCryptoAPI "system" 5000000001 5
      (singleEntryOps (markedEntry 0) "CERT")).2 = ["CERT"] := by
  have h1 := (c5_strict_expiry_boundary 5000000000 0 5 (markedEntry 0) "CERT"
    rfl rfl rfl).1 (by decide)
  have h2 := (c5_strict_expiry_boundary 5000000001 0 5 (markedEntry 0) "CERT"
    rfl rfl rfl).2 (by decide)
  exact ⟨h1.1, h1.2, h2.1, h2.2⟩

/-- C9: any failure to read an entry's magic value — whatever the error,
not only absence — makes the check return not-expired with no error, so
the sweep silently skips the entry, emitting no log event for it and
continuing with the remaining entries. -/
theorem c9_magic_read_failure_silently_skipped (now p : ℤ) (k : CertKeyOps) (e : String)
    (hopen : k.openErr = none) (hmagic : k.magicValue = Except.error e) :
    checkCertExpiredCryptoAPI now p k = Except.ok false ∧
    ∀ (ops : CleanOps) (n : String) (rest : List String), ops.entry n = k →
      cleanLoop now p ops (n :: rest) = cleanLoop now p ops rest := by
  have hchk : checkCertExpiredCryptoAPI now p k = Except.ok false := by
    obtain ⟨op, mg, st⟩ := k
    simp only at hopen hmagic
    subst hopen hmagic
    simp [checkCertExpiredCryptoAPI]
  refine ⟨hchk, ?_⟩
  intro ops n rest hent
  simp [cleanLoop, hent, hchk]

/-- C9 (witness): a stale entry whose magic value read fails with a
file-not-found error is skipped with no log event: sweeping it is the same
as sweeping nothing. -/
theorem c9_magic_read_failure_silently_skipped_witness :
    checkCertExpiredCryptoAPI 1000000000000 5 noMagicEntry = Except.ok false ∧
    cleanLoop 1000000000000 5 (singleEntryOps noMagicEntry "STALE") ["STALE"] =
      cleanLoop 1000000000000 5 (singleEntryOps noMagicEntry "STALE") [] := by
  have h := c9_magic_read_failure_silently_skipped 1000000000000 5 noMagicEntry
    "ERROR_FILE_NOT_FOUND" rfl rfl
  exact ⟨h.1, h.2 _ "STALE" [] rfl⟩

/-- C1 (counterexample): the sweep enumerates the two names `AAAA` and
`BBBB`; opening `AAAA` fails, and `BBBB` is a stale marked entry that the
sweep would delete.  The sweep logs the error for `AAAA` and then aborts:
`BBBB` is not processed and not deleted, so one entry's failure DOES abort
the sweep, contradicting the claim that the remaining N−1 entries are
still attempted. -/
theorem c1_counterexample :
    abortDemoOps.readSubKeyNames = Except.ok ["AAAA", "BBBB"] ∧
    checkCertExpiredCryptoAPI 1000000000000 5 (abortDemoOps.entry "AAAA") =
      Except.error (CheckErr.openKeyFailed "ERROR_ACCESS_DENIED") ∧
    checkCertExpiredCryptoAPI 1000000000000 5 (abortDemoOps.entry "BBBB") =
      Except.ok true ∧
    cleanCertsCryptoAPI "system" 1000000000000 5 abortDemoOps =
      ([CleanLog.checkExpiredFailed (CheckErr.openKeyFailed "ERROR_ACCESS_DENIED")], []) :=
  ⟨rfl, rfl, rfl, rfl⟩

/-- C1 (amended): if opening or inspecting an enumerated entry fails, the
sweep reports the error for that entry and then aborts, leaving the
remaining entries unprocessed; only a failure to delete an entry already
judged expired is reported without aborting the sweep. -/
theorem c1_check_failure_aborts_sweep (now p : ℤ) (ops : CleanOps) (n : String)
    (rest : List String) :
    (∀ e, checkCertExpiredCryptoAPI now p (ops.entry n) = Except.error e →
      cleanLoop now p ops (n :: rest) = ([CleanLog.checkExpiredFailed e], [])) ∧
    (∀ e, checkCertExpiredCryptoAPI now p (ops.entry n) = Except.ok true →
      ops.deleteKeyErr n = some e →
      cleanLoop now p ops (n :: rest) =
        (CleanLog.deleteExpiredFailed e :: (cleanLoop now p ops rest).1,
         (cleanLoop now p ops rest).2)) := by
  constructor
  · intro e he
    simp [cleanLoop, he]
  · intro e hc hd
    simp [cleanLoop, hc, hd]

/-- C1 (amended, witness): a failed check on the first of two entries
aborts the whole sweep, while a failed deletion of the first of two stale
entries is logged and the second entry is still processed. -/
theorem c1_check_failure_aborts_sweep_witness :
    checkCertExpiredCryptoAPI 1000000000000 5 (abortDemoOps.entry "AAAA") =
      Except.error (CheckErr.openKeyFailed "ERROR_ACCESS_DENIED") ∧
    cleanLoop 1000000000000 5 abortDemoOps ["AAAA", "BBBB"] =
      ([CleanLog.checkExpiredFailed (CheckErr.openKeyFailed "ERROR_ACCESS_DENIED")], []) ∧
    checkCertExpiredCryptoAPI 1000000000000 5 (delFailDemoOps.entry "DEAD") =
      Except.ok true ∧
    delFailDemoOps.deleteKeyErr "DEAD" = some "ERROR_ACCESS_DENIED" ∧
    cleanLoop 1000000000000 5 delFailDemoOps ["DEAD", "BEEF"] =
      (CleanLog.deleteExpiredFailed "ERROR_ACCESS_DENIED" ::
        (cleanLoop 1000000000000 5 delFailDemoOps ["BEEF"]).1,
       (cleanLoop 1000000000000 5 delFailDemoOps ["BEEF"]).2) := by
  refine ⟨rfl, ?_, rfl, rfl, ?_⟩
  · exact (c1_check_failure_aborts_sweep 1000000000000 5 abortDemoOps "AAAA" ["BBBB"]).1
      (CheckErr.openKeyFailed "ERROR_ACCESS_DENIED") rfl
  · exact (c1_check_failure_aborts_sweep 1000000000000 5 delFailDemoOps "DEAD" ["BEEF"]).2
      "ERROR_ACCESS_DENIED" rfl rfl

/-- C4: an unknown physical scope aborts both injection and the sweep with
the configuration error surfaced; a failure to open the cert store aborts
either operation with the error surfaced; a failure to enumerate
sub-containers aborts the sweep with the error surfaced.  In every case
the operation stops before touching any entry. -/
theorem c4_top_level_errors_surfaced (name : String) (der : List Nat) (iops : InjectOps)
    (now p : ℤ) (cops : CleanOps) (e : String) :
    (cryptoAPIStores name = none →
      injectCertCryptoAPI name der iops =
        ([InjectLog.resolveFailed invalidStoreChoiceMsg], []) ∧
      cleanCertsCryptoAPI name now p cops =
        ([CleanLog.resolveFailed invalidStoreChoiceMsg], [])) ∧
    (iops.openStoreErr = some e → der.length < 4294967296 →
      injectCertCryptoAPI "system" der iops = ([InjectLog.openStoreFailed e], [])) ∧
    (cops.openStoreErr = some e →
      cleanCertsCryptoAPI "system" now p cops = ([CleanLog.openStoreFailed e], [])) ∧
    (cops.openStoreErr = none → cops.readSubKeyNames = Except.error e →
      cleanCertsCryptoAPI "system" now p cops = ([CleanLog.listCertsFailed e], [])) := by
  have hres : cryptoAPINameToStore "system" =
      Except.ok ⟨"HKEY_LOCAL_MACHINE", "SOFTWARE\\Microsoft\\SystemCertificates",
                 "%s\\Certificates"⟩ := by rfl
  refine ⟨?_, ?_, ?_, ?_⟩
  · intro h
    constructor
    · simp [injectCertCryptoAPI, cryptoAPINameToStore, h]
    · simp [cleanCertsCryptoAPI, cryptoAPINameToStore, h]
  · intro ho hlen
    simp [injectCertCryptoAPI, hres, certblobBlob, blobMarshal, marshalRecord, hlen, ho]
  · intro ho
    simp [cleanCertsCryptoAPI, hres, ho]
  · intro ho hr
    simp [cleanCertsCryptoAPI, hres, ho, hr]

/-- C4 (witness): the invalid scope name `registry`, a store-open failure,
and an enumeration failure each abort their operation with the error
surfaced and nothing else done. -/
theorem c4_top_level_errors_surfaced_witness :
    injectCertCryptoAPI "registry" [] okInjectOps =
      ([InjectLog.resolveFailed invalidStoreChoiceMsg], []) ∧
    cleanCertsCryptoAPI "registry" 0 5 openFailCleanOps =
      ([CleanLog.resolveFailed invalidStoreChoiceMsg], []) ∧
    injectCertCryptoAPI "system" [] openFailInjectOps =
      ([InjectLog.openStoreFailed "ERROR_ACCESS_DENIED"], []) ∧
    cleanCertsCryptoAPI "system" 0 5 openFailCleanOps =
      ([CleanLog.openStoreFailed "ERROR_ACCESS_DENIED"], []) ∧
    cleanCertsCryptoAPI "system" 0 5 listFailCleanOps =
      ([CleanLog.listCertsFailed "ERROR_NO_MORE_ITEMS"], []) := by
  have h1 := c4_top_level_errors_surfaced "registry" [] okInjectOps 0 5 openFailCleanOps "x"
  have h2 := c4_top_level_errors_surfaced "x" [] openFailInjectOps 0 5 openFailCleanOps
    "ERROR_ACCESS_DENIED"
  have h3 := c4_top_level_errors_surfaced "x" [] okInjectOps 0 5 listFailCleanOps
    "ERROR_NO_MORE_ITEMS"
  exact ⟨(h1.1 rfl).1, (h1.1 rfl).2, h2.2.1 rfl (by decide), h2.2.2.1 rfl,
    h3.2.2.2 rfl rfl⟩

/-- C6: injection names the certificate's sub-container by the uppercase
hexadecimal rendering of the SHA-1 digest of the supplied bytes, so two
injections of the same bytes — under any valid configurations — resolve to
the same sub-container name. -/
theorem c6_fingerprint_identity (der : List Nat) (phys phys2 : String)
    (iops iops2 : InjectOps) (st st2 : Store)
    (hst : cryptoAPIStores phys = some st) (hst2 : cryptoAPIStores phys2 = some st2)
    (hlen : der.length < 4294967296)
    (hopen : iops.openStoreErr = none) (hcreate : iops.createKeyErr = none)
    (hopen2 : iops2.openStoreErr = none) (hcreate2 : iops2.createKeyErr = none) :
    (injectCertCryptoAPI phys der iops).2.head? =
      some (RegAction.createKey (sToUpper (hexEncodeToString (sha1Sum der)))) ∧
    (injectCertCryptoAPI phys2 der iops2).2.head? =
      (injectCertCryptoAPI phys der iops).2.head? := by
  obtain ⟨t1, h1⟩ := inject_acts_prefix phys der iops st hst hlen hopen hcreate
  obtain ⟨t2, h2⟩ := inject_acts_prefix phys2 der iops2 st2 hst2 hlen hopen2 hcreate2
  rw [h1, h2]
  exact ⟨rfl, rfl⟩

/-- C6 (witness): injecting the bytes `abc` under two different valid
configurations names the sub-container by the uppercase hex SHA-1 of
`abc` both times. -/
theorem c6_fingerprint_identity_witness :
    (injectCertCryptoAPI "system" [97, 98, 99] okInjectOps).2.head? =
      some (RegAction.createKey "A9993E364706816ABA3E25717850C26C9CD0D89D") ∧
    (injectCertCryptoAPI "enterprise" [97, 98, 99] delFailInjectOps).2.head? =
      (injectCertCryptoAPI "system" [97, 98, 99] okInjectOps).2.head? := by
  have h := c6_fingerprint_identity [97, 98, 99] "system" "enterprise"
    okInjectOps delFailInjectOps
    ⟨"HKEY_LOCAL_MACHINE", "SOFTWARE\\Microsoft\\SystemCertificates", "%s\\Certificates"⟩
    ⟨"HKEY_LOCAL_MACHINE", "SOFTWARE\\Microsoft\\EnterpriseCertificates", "%s\\Certificates"⟩
    rfl rfl (by decide) rfl rfl rfl rfl
  exact ⟨h.1.trans (by rfl), h.2⟩

/-- C7: the Blob injection builds holds exactly one record, tagged `0x20`
with the DER bytes as payload unmodified, and the Blob bytes written to
the store are the encoding of exactly that one record. -/
theorem c7_single_record_blob (der : List Nat) (phys : String) (iops : InjectOps)
    (st : Store) (hst : cryptoAPIStores phys = some st)
    (hlen : der.length < 4294967296)
    (hopen : iops.openStoreErr = none) (hcreate : iops.createKeyErr = none)
    (hdword : iops.setDWordErr = none) (hbin : iops.setBinaryErr = none) :
    certblobBlob der = [(0x20, der)] ∧
    blobMarshal (certblobBlob der) =
      Except.ok (le32 0x20 ++ le32 1 ++ le32 der.length ++ der) ∧
    (injectCertCryptoAPI phys der iops).2.getLast? =
      some (RegAction.setBinaryValue "Blob" (le32 0x20 ++ le32 1 ++ le32 der.length ++ der)) := by
  refine ⟨rfl, ?_, ?_⟩
  · simp [certblobBlob, blobMarshal, marshalRecord, hlen]
  · rw [inject_success_eval phys der iops st hst hlen hopen hcreate hdword hbin]
    rfl

/-- C7 (witness): injecting the three bytes `[1, 2, 3]` stores a Blob that
is exactly one record: tag `0x20`, reserved `1`, length `3`, payload
`[1, 2, 3]`. -/
theorem c7_single_record_blob_witness :
    blobMarshal (certblobBlob [1, 2, 3]) =
      Except.ok [32, 0, 0, 0, 1, 0, 0, 0, 3, 0, 0, 0, 1, 2, 3] ∧
    (injectCertCryptoAPI "system" [1, 2, 3] okInjectOps).2.getLast? =
      some (RegAction.setBinaryValue "Blob"
        [32, 0, 0, 0, 1, 0, 0, 0, 3, 0, 0, 0, 1, 2, 3]) := by
  have h := c7_single_record_blob [1, 2, 3] "system" okInjectOps
    ⟨"HKEY_LOCAL_MACHINE", "SOFTWARE\\Microsoft\\SystemCertificates", "%s\\Certificates"⟩
    rfl (by decide) rfl rfl rfl rfl
  exact ⟨h.2.1.trans (by rfl), h.2.2.trans (by rfl)⟩

/-- C8: once the certificate sub-key is created, injection first deletes
any pre-existing magic value and only then writes the magic value (fixed
name, integer value 1) followed by the Blob value; and the whole outcome
of injection is independent of the result of that deletion, so a deletion
error (including absence of the value) never fails the injection. -/
theorem c8_delete_marker_before_write (phys : String) (der : List Nat)
    (iops iops2 : InjectOps) (st : Store)
    (hst : cryptoAPIStores phys = some st) (hlen : der.length < 4294967296)
    (hopen : iops.openStoreErr = none) (hcreate : iops.createKeyErr = none)
    (ho2 : iops2.openStoreErr = iops.openStoreErr)
    (hc2 : iops2.createKeyErr = iops.createKeyErr)
    (hd2 : iops2.setDWordErr = iops.setDWordErr)
    (hb2 : iops2.setBinaryErr = iops.setBinaryErr) :
    (injectCertCryptoAPI phys der iops).2.take 3 =
      [RegAction.createKey (certFingerprintName der),
       RegAction.deleteValue cryptoAPIMagicName,
       RegAction.setDWordValue cryptoAPIMagicName cryptoAPIMagicValue] ∧
    injectCertCryptoAPI phys der iops2 = injectCertCryptoAPI phys der iops := by
  constructor
  · obtain ⟨t1, h1⟩ := inject_acts_prefix phys der iops st hst hlen hopen hcreate
    rw [h1]
    rfl
  · obtain ⟨o, c, dv, dw, sb⟩ := iops
    obtain ⟨o2, c2, dv2, dw2, sb2⟩ := iops2
    simp only at ho2 hc2 hd2 hb2
    subst ho2 hc2 hd2 hb2
    rfl

/-- C8 (witness): injection with a failing magic-value deletion produces
exactly the same log and registry-mutation trace as injection with a
succeeding one, and the trace deletes the magic value before writing it. -/
theorem c8_delete_marker_before_write_witness :
    (injectCertCryptoAPI "system" [] okInjectOps).2.take 3 =
      [RegAction.createKey "DA39A3EE5E6B4B0D3255BFEF95601890AFD80709",
       RegAction.deleteValue "Namecoin",
       RegAction.setDWordValue "Namecoin" 1] ∧
    injectCertCryptoAPI "system" [] delFailInjectOps =
      injectCertCryptoAPI "system" [] okInjectOps := by
  have h := c8_delete_marker_before_write "system" [] okInjectOps delFailInjectOps
    ⟨"HKEY_LOCAL_MACHINE", "SOFTWARE\\Microsoft\\SystemCertificates", "%s\\Certificates"⟩
    rfl (by decide) rfl rfl rfl rfl rfl rfl
  exact ⟨h.1.trans (by rfl), h.2⟩

/-- C10: injection accepts every byte sequence, the empty one included: no
validation of DER structure happens anywhere on the injection path, and
with all registry calls succeeding the injection completes with no error
logged, keying the entry by the uppercase hex SHA-1 of whatever bytes were
supplied. -/
theorem c10_injection_accepts_all_bytes (der : List Nat) (phys : String)
    (iops : InjectOps) (st : Store)
    (hst : cryptoAPIStores phys = some st) (hlen : der.length < 4294967296)
    (hopen : iops.openStoreErr = none) (hcreate : iops.createKeyErr = none)
    (hdword : iops.setDWordErr = none) (hbin : iops.setBinaryErr = none) :
    injectCertCryptoAPI phys der iops =
      ([], [RegAction.createKey (sToUpper (hexEncodeToString (sha1Sum der))),
            RegAction.deleteValue cryptoAPIMagicName,
            RegAction.setDWordValue cryptoAPIMagicName cryptoAPIMagicValue,
            RegAction.setBinaryValue "Blob"
              (le32 0x20 ++ le32 1 ++ le32 der.length ++ der)]) :=
  inject_success_eval phys der iops st hst hlen hopen hcreate hdword hbin

/-- C10 (witness): injecting the empty byte sequence succeeds with no
error logged, keyed by the uppercase hex SHA-1 of the empty input. -/
theorem c10_injection_accepts_all_bytes_witness :
    injectCertCryptoAPI "system" [] okInjectOps =
      ([], [RegAction.createKey "DA39A3EE5E6B4B0D3255BFEF95601890AFD80709",
            RegAction.deleteValue "Namecoin",
            RegAction.setDWordValue "Namecoin" 1,
            RegAction.setBinaryValue "Blob"
              [32, 0, 0, 0, 1, 0, 0, 0, 0, 0, 0, 0]]) := by
  have h := c10_injection_accepts_all_bytes [] "system" okInjectOps
    ⟨"HKEY_LOCAL_MACHINE", "SOFTWARE\\Microsoft\\SystemCertificates", "%s\\Certificates"⟩
    rfl (by decide) rfl rfl rfl rfl
  exact h.trans (by rfl)

end Certinject
